/-
Verification of the `dataCleaner` class (src/scripts/dataCleaner.py).

The class offers independent cleaning operations over pandas DataFrames.
We shallow-embed the tables and the operations the claims concern:

* a table (`DataFrame`) is an association list of named columns, each
  column a list of cells, a cell being `Option ℚ` (`none` is a null/NaN
  cell; numeric values are embedded as exact rationals);
* pandas statistics (`mean`, `median`, `quantile` with the default
  linear interpolation) are defined over the non-null entries of a
  column, as pandas computes them with its default `skipna=True`;
* an operation that can let a Python exception escape to the caller is
  embedded with an `Except String` result; an exception that the
  source catches and prints is not an `Except.error` but the branch's
  fallback value, mirroring the `try/except/print` structure.
-/

import Mathlib

/-- A cell of a pandas column: `none` embeds a null/NaN entry. -/
abbrev Cell : Type := Option ℚ

/-- A pandas column (Series) of numeric cells. -/
abbrev Col : Type := List Cell

/-- A pandas DataFrame: named columns in order. -/
abbrev DataFrame : Type := List (String × Col)

/-- Column selection `df[name]` / attribute access `df.name`: the first
column carrying the name, `none` when the DataFrame has no such column
(pandas raises `KeyError` / `AttributeError` there). -/
def lookupCol : DataFrame → String → Option Col
  | [], _ => none
  | (n, c) :: rest, k => if n = k then some c else lookupCol rest k

/-- Column assignment `df[name] = col`: replaces the first column of
that name, appends a fresh column when the name is absent. -/
def setCol : DataFrame → String → Col → DataFrame
  | [], k, c => [(k, c)]
  | (n, v) :: rest, k, c =>
      if n = k then (k, c) :: rest else (n, v) :: setCol rest k c

/-- The non-null entries of a column, in order (what pandas aggregates
over under its default `skipna=True`). -/
def denull (col : Col) : List ℚ := col.filterMap id

/-- Insertion into a sorted list of rationals. -/
def insertSorted (x : ℚ) : List ℚ → List ℚ
  | [] => [x]
  | y :: ys => if x ≤ y then x :: y :: ys else y :: insertSorted x ys

/-- Ascending insertion sort, used to embed pandas sorting values
before a quantile computation. -/
def sortList (l : List ℚ) : List ℚ := l.foldr insertSorted []

/-- `Series.quantile q` with the default linear interpolation: with the
values sorted ascending as `s` of length `n`, the result sits at the
fractional position `h = q·(n-1)`, linearly interpolated between the
neighbouring order statistics. Junk value `0` for an empty list (pandas
yields NaN there; every use below guards against the empty case). -/
def quantile (vs : List ℚ) (q : ℚ) : ℚ :=
  let s := sortList vs
  let n := s.length
  if n = 0 then 0
  else
    let h : ℚ := q * ((n : ℚ) - 1)
    let i : ℕ := (Int.floor h).toNat
    let lo := s.getD i 0
    let hi := s.getD (i + 1) lo
    lo + (h - (i : ℚ)) * (hi - lo)

/-- `Series.median`: pandas' median (middle order statistic, or the
mean of the two middle ones) coincides with the linearly interpolated
quantile at `1/2`. -/
def median (vs : List ℚ) : ℚ := quantile vs (1 / 2)

/-- `Series.mean`: sum of the values over their count. -/
def mean (vs : List ℚ) : ℚ := vs.sum / (vs.length : ℚ)

/-- The `np.where(df[column] > df[column].quantile(0.95), df[column].median(), df[column])`
payload of `fix_outlier`, applied to one column: every non-null cell
strictly above the column's 95th percentile becomes the column's
median; other cells (including nulls, for which the comparison is
False) are unchanged. When the column is entirely null both statistics
are NaN, every comparison is False and the column is unchanged. -/
def fixOutlierCol (col : Col) : Col :=
  let vs := denull col
  if vs = [] then col
  else
    let t := quantile vs (19 / 20)
    let m := median vs
    col.map (fun c => c.map (fun x => if t < x then m else x))

/-- `dataCleaner.fix_outlier(df, column)`. The `try` block reads
`df[column]` (raising `KeyError` when the name is absent — caught and
printed) and otherwise overwrites the column with its clipped version.
The final `return df[column]` sits OUTSIDE the `try`, so when the
column is absent that access raises `KeyError` again, uncaught, and the
exception propagates to the caller. Result: the DataFrame after the
call, paired with the returned value (`Except.error` embeds the escaped
exception). -/
def fix_outlier (df : DataFrame) (column : String) : DataFrame × Except String Col :=
  match lookupCol df column with
  | none => (df, Except.error "KeyError")
  | some col =>
      let newCol := fixOutlierCol col
      (setCol df column newCol, Except.ok newCol)

/-- `dataCleaner.fill_na(type, df, cols)`. For `type` in
`{"mean","median","mode"}` the loop body is literally
`self.df.col.fillna(value=df.col.<stat>(), axis=1, inplace=True)`:
`self.df.col` and `df.col` are ATTRIBUTE accesses for a column
literally named `"col"` (not the loop variable), raising
`AttributeError` when no such column exists; and even when both tables
carry a column named `"col"`, `Series.fillna(..., axis=1, ...)` raises
`ValueError` (`No axis named 1 for object type Series`) before filling
anything. So with a non-empty `cols` the first iteration always raises;
the `except` clause prints the error and the method falls through,
returning Python's `None`, with both tables untouched. With `cols = []`
the loop body never runs and `self.df` is returned. Any other `type`
prints the usage message and the method returns `None`. Result:
`(self.df after, df after, returned value)` — `none` embeds a `None`
return. -/
def fill_na (selfDf : DataFrame) (type : String) (df : DataFrame)
    (cols : List String) : DataFrame × DataFrame × Option DataFrame :=
  if type = "mean" ∨ type = "median" ∨ type = "mode" then
    match cols with
    | [] => (selfDf, df, some selfDf)
    | _ :: _ =>
      match lookupCol selfDf "col", lookupCol df "col" with
      | none, _ => (selfDf, df, none)
      | some _, none => (selfDf, df, none)
      | some _, some _ => (selfDf, df, none)
  else
    (selfDf, df, none)

/-- `dataCleaner.remove_unwanted_cols(cols)`. The constructor never
sets `self.df`, so the field may be unset (`none` here). The `try`
block runs `self.df.drop(cols, axis=1, inplace=True)`: pandas drops all
the named columns, or raises `KeyError` and drops nothing when any name
is absent; an unset `self.df` raises `AttributeError`. Both are caught
and printed, but the `finally: return self.df` re-evaluates `self.df`
OUTSIDE the `try`: with the field unset the `AttributeError` propagates
to the caller. Result: `(self.df after, returned value)`. -/
def remove_unwanted_cols (selfDf : Option DataFrame) (cols : List String) :
    Option DataFrame × Except String DataFrame :=
  match selfDf with
  | none => (none, Except.error "AttributeError")
  | some d =>
      if cols.all (fun c => (lookupCol d c).isSome) then
        let d2 := d.filter (fun p => !(cols.contains p.1))
        (some d2, Except.ok d2)
      else
        (some d, Except.ok d)

/-- `fillna` of one column with a fixed value `m`: null cells become
`m`, non-null cells are unchanged. -/
def fillColWith (m : ℚ) (col : Col) : Col :=
  col.map (fun c => some (c.getD m))

/-- One column of `df[cols].fillna(df[cols].median())`: nulls become
the column's own median over its non-null entries. A fully null column
has median NaN, so `fillna` leaves it unchanged. -/
def fillColMedian (col : Col) : Col :=
  if denull col = [] then col else fillColWith (median (denull col)) col

/-- One column of `df[cols].fillna(df[cols].mean())`: nulls become the
column's own mean over its non-null entries. A fully null column has
mean NaN, so `fillna` leaves it unchanged. -/
def fillColMean (col : Col) : Col :=
  if denull col = [] then col else fillColWith (mean (denull col)) col

/-- `dataCleaner.fillWithMedian(df, cols)`. The `try` block evaluates
`df[cols]` — raising `KeyError`, caught and printed, when any listed
name is absent, in which case `return df` yields the table unmodified —
and otherwise fills each listed column's nulls with that column's own
median. -/
def fillWithMedian (df : DataFrame) (cols : List String) : DataFrame :=
  if cols.all (fun c => (lookupCol df c).isSome) then
    df.map (fun p => (p.1, if p.1 ∈ cols then fillColMedian p.2 else p.2))
  else df

/-- `dataCleaner.fillWithMean(df, cols)`: as `fillWithMedian` with the
mean in place of the median. -/
def fillWithMean (df : DataFrame) (cols : List String) : DataFrame :=
  if cols.all (fun c => (lookupCol df c).isSome) then
    df.map (fun p => (p.1, if p.1 ∈ cols then fillColMean p.2 else p.2))
  else df

/-- Row count of a DataFrame (`df.shape[0]`): the length of its
columns (pandas keeps all columns the same length; an empty DataFrame
has zero rows). -/
def nRows : DataFrame → ℕ
  | [] => 0
  | (_, c) :: _ => c.length

/-- Column count of a DataFrame (`df.shape[1]`). -/
def nCols (df : DataFrame) : ℕ := df.length

/-- Null count of one column (`df.isnull().sum()` per column). -/
def countNone (col : Col) : ℕ := (col.filter (fun c => c.isNone)).length

/-- `df.isnull().sum().sum()`: total number of null cells. -/
def totalMissing (df : DataFrame) : ℕ :=
  (df.map (fun p => countNone p.2)).sum

/-- Python's `round(x, 10)`, embedded as exact rational rounding of
`x·10¹⁰` to the nearest integer (the Python builtin rounds the binary
float, ties to even; the tie rule never matters in the theorems below,
which use the same function on both sides). -/
def round10 (q : ℚ) : ℚ := ((round (q * 10 ^ 10) : ℤ) : ℚ) / 10 ^ 10

/-- `dataCleaner.percent_missing(df)`: prints
`round(totalMissing / totalCells * 100, 10)` where
`totalCells = np.product(df.shape)` and `totalMissing` counts the null
cells; the method itself returns `None`. The embedding returns the
reported number; `none` embeds the degenerate zero-cell table, where
the numpy integer division yields NaN and no percentage is reported. -/
def percent_missing (df : DataFrame) : Option ℚ :=
  let totalCells := nRows df * nCols df
  if totalCells = 0 then none
  else some (round10 ((totalMissing df : ℚ) / (totalCells : ℚ) * 100))

/-- The loop of `choose_k_means`: for each `k` in turn, fit the
`k`-means model and append the distortion and the inertia to the two
accumulators. `fit k = none` embeds an exception inside iteration `k`:
the loop aborts there and (the whole loop sitting in the `try`) the
lists accumulated so far are kept. -/
def sweepAux (fit : ℕ → Option (ℚ × ℚ)) :
    List ℕ → List ℚ → List ℚ → List ℚ × List ℚ
  | [], dist, inert => (dist, inert)
  | k :: rest, dist, inert =>
      match fit k with
      | none => (dist, inert)
      | some di => sweepAux fit rest (dist ++ [di.1]) (inert ++ [di.2])

/-- `dataCleaner.choose_k_means(df, num)`. The per-`k` work —
`KMeans(n_clusters=k, random_state=777).fit(df)`, the mean minimal
euclidean distance to the fitted centers (distortion) and the model's
inertia — is a call into sklearn/scipy on the fixed `df`, embedded as
the oracle `fit : ℕ → Option (ℚ × ℚ)` (`none` = the call raised). The
method sweeps `k` over `range(1, num)`; `return (distortions,
inertias)` sits after the `try/except`, and both lists are created
before the loop, so the partial lists are returned whether or not an
exception cut the sweep short. -/
def choose_k_means (fit : ℕ → Option (ℚ × ℚ)) (num : ℕ) : List ℚ × List ℚ :=
  sweepAux fit (List.range' 1 (num - 1)) [] []

/-! Helper lemmas about the embedded table operations. -/

theorem lookupCol_setCol_self (df : DataFrame) (k : String) (c : Col) :
    lookupCol (setCol df k c) k = some c := by
  induction df with
  | nil => simp [setCol, lookupCol]
  | cons p rest ih =>
      obtain ⟨n, v⟩ := p
      by_cases h : n = k
      · simp [setCol, h, lookupCol]
      · simp [setCol, h, lookupCol, ih]

theorem setCol_setCol (df : DataFrame) (k : String) (c d : Col) :
    setCol (setCol df k c) k d = setCol df k d := by
  induction df with
  | nil => simp [setCol]
  | cons p rest ih =>
      obtain ⟨n, v⟩ := p
      by_cases h : n = k
      · simp [setCol, h]
      · simp [setCol, h, ih]

theorem lookupCol_map_sel (df : DataFrame) (cols : List String) (g : Col → Col)
    (name : String) :
    lookupCol (df.map (fun p => (p.1, if p.1 ∈ cols then g p.2 else p.2))) name
      = if name ∈ cols then (lookupCol df name).map g else lookupCol df name := by
  induction df with
  | nil => simp [lookupCol]
  | cons p rest ih =>
      obtain ⟨n, v⟩ := p
      by_cases hn : n = name
      · subst hn
        by_cases hc : n ∈ cols <;> simp [lookupCol, hc]
      · by_cases hc : n ∈ cols <;> simp [lookupCol, hc, hn, ih]

theorem mem_denull {col : Col} {x : ℚ} (h : some x ∈ col) : x ∈ denull col := by
  simp only [denull, List.mem_filterMap, id]
  exact ⟨some x, h, rfl⟩

theorem map_clip_eq_self (t m : ℚ) (col : Col)
    (h : ∀ x : ℚ, some x ∈ col → ¬t < x) :
    col.map (fun c => c.map (fun x => if t < x then m else x)) = col := by
  induction col with
  | nil => rfl
  | cons c rest ih =>
      have h1 : ∀ x : ℚ, some x ∈ rest → ¬t < x :=
        fun x hx => h x (List.mem_cons_of_mem _ hx)
      cases c with
      | none => simp [ih h1]
      | some x =>
          have hx := h x (List.mem_cons_self _ _)
          simp [ih h1, if_neg hx]

theorem fixOutlierCol_of_le (col : Col)
    (h : ∀ x ∈ denull col, x ≤ quantile (denull col) (19 / 20)) :
    fixOutlierCol col = col := by
  by_cases hvs : denull col = []
  · simp [fixOutlierCol, hvs]
  · simp only [fixOutlierCol, if_neg hvs]
    exact map_clip_eq_self _ _ col
      (fun x hx => not_lt.mpr (h x (mem_denull hx)))

theorem sweepAux_append_all_some (fit : ℕ → Option (ℚ × ℚ)) (ks₁ ks₂ : List ℕ)
    (dist inert : List ℚ) (h : ∀ k ∈ ks₁, (fit k).isSome = true) :
    sweepAux fit (ks₁ ++ ks₂) dist inert
      = sweepAux fit ks₂
          (dist ++ ks₁.map (fun k => ((fit k).getD (0, 0)).1))
          (inert ++ ks₁.map (fun k => ((fit k).getD (0, 0)).2)) := by
  induction ks₁ generalizing dist inert with
  | nil => simp
  | cons k ks ih =>
      obtain ⟨p, hp⟩ :=
        Option.isSome_iff_exists.mp (h k (List.mem_cons_self _ _))
      have hks : ∀ j ∈ ks, (fit j).isSome = true :=
        fun j hj => h j (List.mem_cons_of_mem _ hj)
      have hstep : sweepAux fit ((k :: ks) ++ ks₂) dist inert
          = sweepAux fit (ks ++ ks₂) (dist ++ [p.1]) (inert ++ [p.2]) := by
        simp [sweepAux, hp]
      rw [hstep, ih _ _ hks]
      simp [hp]

theorem getD_of_len_le {s : List ℚ} {k : ℕ} (h : s.length ≤ k) (d : ℚ) :
    s.getD k d = d := by
  rw [List.getD_eq_getElem?_getD, List.getElem?_eq_none h]
  rfl

theorem sorted_getD_le {s : List ℚ} (hs : s.Sorted (· ≤ ·)) {i j : ℕ}
    (hij : i ≤ j) (hj : j < s.length) (d e : ℚ) :
    s.getD i d ≤ s.getD j e := by
  have hi : i < s.length := Nat.lt_of_le_of_lt hij hj
  rw [List.getD_eq_getElem?_getD, List.getD_eq_getElem?_getD,
    List.getElem?_eq_getElem hi, List.getElem?_eq_getElem hj,
    Option.getD_some, Option.getD_some]
  rcases Nat.lt_or_ge i j with hlt | hge
  · have h := hs.rel_get_of_lt (show (⟨i, hi⟩ : Fin s.length) < ⟨j, hj⟩ from hlt)
    simpa [List.get_eq_getElem] using h
  · have heq : i = j := Nat.le_antisymm hij hge
    subst heq
    exact le_refl _

theorem insertSorted_eq_orderedInsert (x : ℚ) (l : List ℚ) :
    insertSorted x l = List.orderedInsert (· ≤ ·) x l := by
  induction l with
  | nil => rfl
  | cons y ys ih =>
      by_cases h : x ≤ y <;> simp [insertSorted, List.orderedInsert, h, ih]

theorem sortList_eq_insertionSort (l : List ℚ) :
    sortList l = List.insertionSort (· ≤ ·) l := by
  induction l with
  | nil => rfl
  | cons a t ih =>
      have h : sortList (a :: t) = insertSorted a (sortList t) := rfl
      rw [h, ih, insertSorted_eq_orderedInsert]
      rfl

theorem sortList_sorted (l : List ℚ) : (sortList l).Sorted (· ≤ ·) := by
  rw [sortList_eq_insertionSort]
  exact List.sorted_insertionSort _ l

theorem sortList_length (l : List ℚ) : (sortList l).length = l.length := by
  rw [sortList_eq_insertionSort]
  exact (List.perm_insertionSort _ l).length_eq

theorem quantile_mono (vs : List ℚ) (hne : vs ≠ []) {q1 q2 : ℚ}
    (hq0 : 0 ≤ q1) (hq12 : q1 ≤ q2) (hq1 : q2 ≤ 1) :
    quantile vs q1 ≤ quantile vs q2 := by
  have hn : (sortList vs).length ≠ 0 := by
    rw [sortList_length]
    exact fun h => hne (List.length_eq_zero.mp h)
  have hs : (sortList vs).Sorted (· ≤ ·) := sortList_sorted vs
  simp only [quantile]
  rw [if_neg hn, if_neg hn]
  generalize hgen : sortList vs = s
  rw [hgen] at hn hs
  simp only [Int.floor_toNat]
  have hlen1 : 1 ≤ s.length := Nat.pos_of_ne_zero hn
  have hcast : ((s.length : ℚ) - 1) = ((s.length - 1 : ℕ) : ℚ) := by
    rw [Nat.cast_sub hlen1, Nat.cast_one]
  set h1 : ℚ := q1 * ((s.length : ℚ) - 1) with hh1
  set h2 : ℚ := q2 * ((s.length : ℚ) - 1) with hh2
  have hNnn : (0 : ℚ) ≤ (s.length : ℚ) - 1 := by
    rw [hcast]; exact Nat.cast_nonneg _
  have hh0 : 0 ≤ h1 := mul_nonneg hq0 hNnn
  have hh12 : h1 ≤ h2 := mul_le_mul_of_nonneg_right hq12 hNnn
  have hh20 : 0 ≤ h2 := le_trans hh0 hh12
  have hh2N : h2 ≤ (s.length : ℚ) - 1 := by
    rw [hh2]
    exact mul_le_of_le_one_left hNnn hq1
  set i1 : ℕ := ⌊h1⌋₊ with hi1def
  set i2 : ℕ := ⌊h2⌋₊ with hi2def
  have hf10 : (i1 : ℚ) ≤ h1 := Nat.floor_le hh0
  have hf20 : (i2 : ℚ) ≤ h2 := Nat.floor_le hh20
  have hf11 : h1 < (i1 : ℚ) + 1 := Nat.lt_floor_add_one h1
  have hi12 : i1 ≤ i2 := Nat.floor_mono hh12
  have hi2N : i2 < s.length := by
    have h := Nat.floor_mono (le_of_le_of_eq hh2N hcast)
    rw [Nat.floor_natCast] at h
    omega
  set lo1 := s.getD i1 0 with hlo1
  set hi1v := s.getD (i1 + 1) lo1 with hhi1
  set lo2 := s.getD i2 0 with hlo2
  set hi2v := s.getD (i2 + 1) lo2 with hhi2
  have hlo1hi1 : lo1 ≤ hi1v := by
    rcases Nat.lt_or_ge (i1 + 1) s.length with hlt | hge
    · exact sorted_getD_le hs (Nat.le_succ i1) hlt 0 lo1
    · rw [hhi1, getD_of_len_le hge]
  have hlo2hi2 : lo2 ≤ hi2v := by
    rcases Nat.lt_or_ge (i2 + 1) s.length with hlt | hge
    · exact sorted_getD_le hs (Nat.le_succ i2) hlt 0 lo2
    · rw [hhi2, getD_of_len_le hge]
  rcases Nat.lt_or_ge i1 i2 with hlt | hge
  · have hrange : i1 + 1 < s.length := by omega
    have hchain : hi1v ≤ lo2 := by
      rw [hhi1, hlo2]
      exact sorted_getD_le hs (by omega) hi2N lo1 0
    have hv1 : lo1 + (h1 - (i1 : ℚ)) * (hi1v - lo1) ≤ hi1v := by nlinarith
    have hv2 : lo2 ≤ lo2 + (h2 - (i2 : ℚ)) * (hi2v - lo2) := by nlinarith
    linarith
  · have heq : i1 = i2 := Nat.le_antisymm hi12 hge
    have hsame : lo2 = lo1 := by rw [hlo2, hlo1, ← heq]
    have hsame2 : hi2v = hi1v := by rw [hhi2, hhi1, ← heq, hsame]
    have hd : 0 ≤ hi1v - lo1 := by linarith
    have hstep : (h1 - (i1 : ℚ)) * (hi1v - lo1) ≤ (h2 - (i1 : ℚ)) * (hi1v - lo1) :=
      mul_le_mul_of_nonneg_right (by linarith) hd
    rw [hsame, hsame2, ← heq]
    linarith

theorem map_eq_self_mem {α : Type} {f : α → α} :
    ∀ {l : List α}, l.map f = l → ∀ a ∈ l, f a = a := by
  intro l
  induction l with
  | nil => intro _ a ha; cases ha
  | cons b t ih =>
      intro h a ha
      rw [List.map_cons] at h
      injection h with h1 h2
      rcases List.mem_cons.mp ha with rfl | hat
      · exact h1
      · exact ih h2 a hat

theorem fixOutlierCol_eq_self_iff (col : Col) :
    fixOutlierCol col = col
      ↔ ∀ x ∈ denull col, x ≤ quantile (denull col) (19 / 20) := by
  constructor
  · intro heq x hx
    by_contra hgt
    push_neg at hgt
    have hne : denull col ≠ [] := by
      intro h
      rw [h] at hx
      cases hx
    simp only [fixOutlierCol, if_neg hne] at heq
    have hcell : some x ∈ col := by
      simp only [denull, List.mem_filterMap, id] at hx
      obtain ⟨a, ha, hax⟩ := hx
      rwa [hax] at ha
    have hfix := map_eq_self_mem heq (some x) hcell
    simp only [Option.map_some', if_pos hgt, Option.some.injEq] at hfix
    have hle : quantile (denull col) (1 / 2) ≤ quantile (denull col) (19 / 20) :=
      quantile_mono (denull col) hne (by norm_num) (by norm_num) (by norm_num)
    rw [← median] at hle
    linarith
  · exact fixOutlierCol_of_le col

/-! Claim theorems. -/

/-- Claim C1 (code bug): the claim says `fill_na` with kind `"mean"`
fills the null cells of each listed column of the internal table with
the mean of the passed-in table's same-named column and returns the
internal table. The code instead accesses a column literally named
`"col"` (`self.df.col`), so at the failing input — internal table
`{"a": [1, null]}`, parameter table `{"a": [1, 3]}`, kind `"mean"`,
columns `["a"]` — the loop body raises `AttributeError`, the error is
printed, the internal table keeps its null and the method returns
`None` instead of the internal table. -/
theorem fill_na_never_fills_listed_columns :
    fill_na [("a", [some 1, none])] "mean" [("a", [some 1, some 3])] ["a"]
      = ([("a", [some 1, none])], [("a", [some 1, some 3])], none) := by
  simp [fill_na, lookupCol]

/-- Claim C10: `fill_na` never mutates the table passed as its `df`
parameter — in every branch (all three statistic kinds, the usage
branch and every exception path) the parameter table after the call is
the table that was passed in; only `self.df` is ever the target of the
(always failing) in-place fill. -/
theorem fill_na_preserves_param_df (selfDf : DataFrame) (type : String)
    (df : DataFrame) (cols : List String) :
    (fill_na selfDf type df cols).2.1 = df := by
  unfold fill_na
  split
  · split
    · rfl
    · split <;> rfl
  · rfl

/-- Claim C2 (counterexample): the claim says no public operation ever
propagates an exception to the caller, even for inputs naming columns
absent from the table. But `fix_outlier`'s final `return df[column]`
sits outside its `try/except`, so calling it on a table without the
named column lets the `KeyError` escape: here the one-column table
`{"a": [1]}` is asked to fix column `"b"`. -/
theorem fix_outlier_missing_column_raises :
    (fix_outlier [("a", [some 1])] "b").2 = Except.error "KeyError" := by
  simp [fix_outlier, lookupCol]

/-- Claim C2 (amended): the catch-all guards do swallow the failures
that arise inside the `try` blocks, but two returns sit outside the
guards. `fix_outlier` propagates an exception exactly when the named
column is absent (its final `return df[column]` re-raises the
`KeyError`), and `remove_unwanted_cols` propagates exactly when the
internal table was never set (its `finally: return self.df` re-raises
the `AttributeError`); in all other cases both return their branch's
best-effort value. -/
theorem fix_outlier_remove_cols_error_iff :
    (∀ (df : DataFrame) (column : String),
        (∃ e, (fix_outlier df column).2 = Except.error e)
          ↔ lookupCol df column = none)
    ∧ (∀ (selfDf : Option DataFrame) (cols : List String),
        (∃ e, (remove_unwanted_cols selfDf cols).2 = Except.error e)
          ↔ selfDf = none) := by
  constructor
  · intro df column
    cases h : lookupCol df column <;> simp [fix_outlier, h]
  · intro selfDf cols
    cases selfDf with
    | none => simp [remove_unwanted_cols]
    | some d =>
        by_cases h : (cols.all (fun c => (lookupCol d c).isSome)) = true <;>
          simp [remove_unwanted_cols, h]

/-- Claim C3 (counterexample): the claim says that on any error
`fix_outlier` returns the whole table unmodified; but when the error is
a missing column the method does not return at all — the final
`return df[column]` re-raises the `KeyError`, as at this concrete
input. -/
theorem fix_outlier_error_returns_no_table :
    (fix_outlier [("a", [some 1, some 2])] "missing").2
      = Except.error "KeyError" := by
  simp [fix_outlier, lookupCol]

/-- Claim C3 (amended): `fix_outlier` evaluates `return df[column]`
unconditionally: when the named column exists the caller receives only
the treated column (never the full table), and when it is absent the
column access itself raises, so no value — in particular not the
unmodified table — is returned. -/
theorem fix_outlier_ok_returns_treated_column (df : DataFrame)
    (column : String) (col : Col) (hcol : lookupCol df column = some col) :
    (fix_outlier df column).2 = Except.ok (fixOutlierCol col) := by
  simp [fix_outlier, hcol]

/-- Concrete instance of `fix_outlier_ok_returns_treated_column`: on
the table `{"x": [5, 5]}` the call returns the treated column `[5, 5]`
(nothing exceeds the 95th percentile), not the table. -/
theorem fix_outlier_ok_returns_treated_column_witness :
    (fix_outlier [("x", [some 5, some 5])] "x").2
      = Except.ok [some 5, some 5] := by
  rw [fix_outlier_ok_returns_treated_column [("x", [some 5, some 5])] "x"
      [some 5, some 5] (by simp [lookupCol])]
  have hd : denull [some (5:ℚ), some 5] = [5, 5] := by simp [denull]
  have hq : quantile [5, 5] (19 / 20) = 5 := by
    have ht : Int.toNat 0 = 0 := rfl
    norm_num [quantile, sortList, insertSorted, ht]
  rw [fixOutlierCol, hd]
  norm_num [hq]

/-- Claim C4: for a table with an existing (not entirely null) numeric
column, `fix_outlier` succeeds, replaces the column in the table with
the treated column, and in the treated column every cell whose original
value strictly exceeds the column's pre-call 95th percentile holds the
pre-call median, while every cell at or below the threshold holds its
original value. -/
theorem fix_outlier_clip_spec (df : DataFrame) (column : String) (col : Col)
    (hcol : lookupCol df column = some col) (hne : denull col ≠ []) :
    ∃ out, (fix_outlier df column).2 = Except.ok out
      ∧ (fix_outlier df column).1 = setCol df column out
      ∧ ∀ (i : ℕ) (x : ℚ), col[i]? = some (some x) →
          (quantile (denull col) (19 / 20) < x →
              out[i]? = some (some (median (denull col))))
          ∧ (x ≤ quantile (denull col) (19 / 20) →
              out[i]? = some (some x)) := by
  refine ⟨fixOutlierCol col, by simp [fix_outlier, hcol], by simp [fix_outlier, hcol], ?_⟩
  intro i x hx
  simp only [fixOutlierCol, if_neg hne]
  constructor
  · intro hlt
    simp [List.getElem?_map, hx, if_pos hlt]
  · intro hle
    simp [List.getElem?_map, hx, if_neg (not_lt.mpr hle)]

/-- Concrete instance of `fix_outlier_clip_spec`: on the column
`x = [1, 2, 3, 100]` the 95th percentile is `85.45` and the median
`2.5`, so the cell holding `100` ends up holding `2.5` while the cell
holding `3` is unchanged. -/
theorem fix_outlier_clip_spec_witness :
    ∃ out, (fix_outlier [("x", [some 1, some 2, some 3, some 100])] "x").2
        = Except.ok out
      ∧ out[3]? = some (some (5 / 2)) ∧ out[2]? = some (some 3) := by
  obtain ⟨out, hok, -, hpt⟩ :=
    fix_outlier_clip_spec [("x", [some 1, some 2, some 3, some 100])] "x"
      [some 1, some 2, some 3, some 100] (by simp [lookupCol]) (by simp [denull])
  have hd : denull [some (1:ℚ), some 2, some 3, some 100] = [1, 2, 3, 100] := by
    simp [denull]
  have hq : quantile [1, 2, 3, 100] (19 / 20) = 1709 / 20 := by
    have ht : Int.toNat 2 = 2 := rfl
    norm_num [quantile, sortList, insertSorted, ht]
  have hm : median [1, 2, 3, 100] = 5 / 2 := by
    have ht : Int.toNat 1 = 1 := rfl
    norm_num [median, quantile, sortList, insertSorted, ht]
  refine ⟨out, hok, ?_, ?_⟩
  · have h100 := (hpt 3 100 rfl).1 (by rw [hd, hq]; norm_num)
    rw [hd, hm] at h100
    exact h100
  · exact (hpt 2 3 rfl).2 (by rw [hd, hq]; norm_num)

/-- Claim C9 (counterexample): `fix_outlier` is not idempotent. On the
one-column table `x = [1, 2, 3, 100]` the first application clips `100`
to the median `2.5`; the second application recomputes the 95th
percentile on the clipped column (now `2.925`) and clips `3` to the new
median `2.25`, so the second application changes the table again. -/
theorem fix_outlier_not_idempotent :
    (fix_outlier (fix_outlier [("x", [some 1, some 2, some 3, some 100])] "x").1 "x").1
      ≠ (fix_outlier [("x", [some 1, some 2, some 3, some 100])] "x").1 := by
  have hfix1 : fixOutlierCol [some 1, some 2, some 3, some 100]
      = [some 1, some 2, some 3, some (5 / 2)] := by
    have hd : denull [some (1:ℚ), some 2, some 3, some 100] = [1, 2, 3, 100] := by
      simp [denull]
    have hq : quantile [1, 2, 3, 100] (19 / 20) = 1709 / 20 := by
      have ht : Int.toNat 2 = 2 := rfl
      norm_num [quantile, sortList, insertSorted, ht]
    have hm : median [1, 2, 3, 100] = 5 / 2 := by
      have ht : Int.toNat 1 = 1 := rfl
      norm_num [median, quantile, sortList, insertSorted, ht]
    rw [fixOutlierCol, hd, hq, hm]
    norm_num
    simp
  have hfix2 : fixOutlierCol [some 1, some 2, some 3, some (5 / 2)]
      = [some 1, some 2, some (9 / 4), some (5 / 2)] := by
    have hd : denull [some (1:ℚ), some 2, some 3, some (5 / 2)] = [1, 2, 3, 5 / 2] := by
      simp [denull]
    have hq : quantile [1, 2, 3, 5 / 2] (19 / 20) = 117 / 40 := by
      have ht : Int.toNat 2 = 2 := rfl
      norm_num [quantile, sortList, insertSorted, ht]
    have hm : median [1, 2, 3, 5 / 2] = 9 / 4 := by
      have ht : Int.toNat 1 = 1 := rfl
      norm_num [median, quantile, sortList, insertSorted, ht]
    rw [fixOutlierCol, hd, hq, hm]
    norm_num
    simp
  have e1 : (fix_outlier [("x", [some 1, some 2, some 3, some 100])] "x").1
      = [("x", [some 1, some 2, some 3, some (5 / 2)])] := by
    simp [fix_outlier, lookupCol, setCol, hfix1]
  have e2 : (fix_outlier [("x", [some 1, some 2, some 3, some (5 / 2)])] "x").1
      = [("x", [some 1, some 2, some (9 / 4), some (5 / 2)])] := by
    simp [fix_outlier, lookupCol, setCol, hfix2]
  rw [e1, e2]
  intro hEq
  have hcols := congrArg (fun d => lookupCol d "x") hEq
  simp [lookupCol] at hcols
  norm_num at hcols

/-- Claim C9 (amended): a second application of `fix_outlier` to the
already-clipped column is a no-op exactly when no value of the clipped
column strictly exceeds the 95th percentile RECOMPUTED on the clipped
column (the median of the clipped column never exceeds its 95th
percentile, so any value above the recomputed threshold really is
changed); the percentile shift caused by the first clip can otherwise
trigger further clipping (see the counterexample `[1, 2, 3, 100]`). -/
theorem fix_outlier_idempotent_iff_clipped_below_p95 (df : DataFrame)
    (column : String) (col : Col) (hcol : lookupCol df column = some col) :
    (fix_outlier (fix_outlier df column).1 column).1 = (fix_outlier df column).1
      ↔ ∀ x ∈ denull (fixOutlierCol col),
          x ≤ quantile (denull (fixOutlierCol col)) (19 / 20) := by
  have h1 : (fix_outlier df column).1 = setCol df column (fixOutlierCol col) := by
    simp [fix_outlier, hcol]
  have h2 : lookupCol (setCol df column (fixOutlierCol col)) column
      = some (fixOutlierCol col) := lookupCol_setCol_self df column _
  have h3 : (fix_outlier (setCol df column (fixOutlierCol col)) column).1
      = setCol df column (fixOutlierCol (fixOutlierCol col)) := by
    simp [fix_outlier, h2, setCol_setCol]
  rw [h1, h3]
  constructor
  · intro heq
    have hlook := congrArg (fun d => lookupCol d column) heq
    simp only [lookupCol_setCol_self] at hlook
    exact (fixOutlierCol_eq_self_iff (fixOutlierCol col)).mp (Option.some.inj hlook)
  · intro hall
    rw [(fixOutlierCol_eq_self_iff (fixOutlierCol col)).mpr hall]

/-- Concrete instance of `fix_outlier_idempotent_iff_clipped_below_p95`:
on the constant column `x = [7, 7]` nothing exceeds the recomputed 95th
percentile, so the second application changes nothing. -/
theorem fix_outlier_idempotent_witness :
    (fix_outlier (fix_outlier [("x", [some 7, some 7])] "x").1 "x").1
      = (fix_outlier [("x", [some 7, some 7])] "x").1 := by
  apply (fix_outlier_idempotent_iff_clipped_below_p95 [("x", [some 7, some 7])]
      "x" [some 7, some 7] (by simp [lookupCol])).mpr
  have hd : denull [some (7:ℚ), some 7] = [7, 7] := by simp [denull]
  have hfix : fixOutlierCol [some 7, some 7] = [some 7, some 7] := by
    have hq : quantile [7, 7] (19 / 20) = 7 := by
      have ht : Int.toNat 0 = 0 := rfl
      norm_num [quantile, sortList, insertSorted, ht]
    rw [fixOutlierCol, hd]
    norm_num [hq]
  rw [hfix, hd]
  have hq : quantile [7, 7] (19 / 20) = 7 := by
    have ht : Int.toNat 0 = 0 := rfl
    norm_num [quantile, sortList, insertSorted, ht]
  rw [hq]
  intro x hx
  simp only [List.mem_cons, List.not_mem_nil, or_false, or_self] at hx
  rw [hx]

/-- Claim C5: for a table in which every listed column exists and the
listed column `name` is not entirely null, `fillWithMedian` (resp.
`fillWithMean`) replaces that column by its filled version, in which no
cell is null, every cell that was non-null holds its original value,
and every cell that was null holds the median (resp. mean) of the
column's non-null entries computed before the fill. -/
theorem fill_with_median_mean_spec (df : DataFrame) (cols : List String)
    (name : String) (col : Col)
    (hall : ∀ c ∈ cols, (lookupCol df c).isSome = true)
    (hmem : name ∈ cols)
    (hcol : lookupCol df name = some col)
    (hne : denull col ≠ []) :
    lookupCol (fillWithMedian df cols) name = some (fillColMedian col)
    ∧ lookupCol (fillWithMean df cols) name = some (fillColMean col)
    ∧ (∀ cell ∈ fillColMedian col, cell.isSome = true)
    ∧ (∀ cell ∈ fillColMean col, cell.isSome = true)
    ∧ (∀ (i : ℕ) (x : ℚ), col[i]? = some (some x) →
        (fillColMedian col)[i]? = some (some x)
        ∧ (fillColMean col)[i]? = some (some x))
    ∧ (∀ i : ℕ, col[i]? = some none →
        (fillColMedian col)[i]? = some (some (median (denull col)))
        ∧ (fillColMean col)[i]? = some (some (mean (denull col)))) := by
  have hallb : (cols.all fun c => (lookupCol df c).isSome) = true :=
    List.all_eq_true.mpr hall
  refine ⟨?_, ?_, ?_, ?_, ?_, ?_⟩
  · rw [fillWithMedian, if_pos hallb, lookupCol_map_sel, if_pos hmem, hcol]
    rfl
  · rw [fillWithMean, if_pos hallb, lookupCol_map_sel, if_pos hmem, hcol]
    rfl
  · intro cell hcell
    rw [fillColMedian, if_neg hne] at hcell
    simp only [fillColWith, List.mem_map] at hcell
    obtain ⟨a, -, rfl⟩ := hcell
    rfl
  · intro cell hcell
    rw [fillColMean, if_neg hne] at hcell
    simp only [fillColWith, List.mem_map] at hcell
    obtain ⟨a, -, rfl⟩ := hcell
    rfl
  · intro i x hx
    constructor
    · rw [fillColMedian, if_neg hne]
      simp [fillColWith, List.getElem?_map, hx]
    · rw [fillColMean, if_neg hne]
      simp [fillColWith, List.getElem?_map, hx]
  · intro i hx
    constructor
    · rw [fillColMedian, if_neg hne]
      simp [fillColWith, List.getElem?_map, hx]
    · rw [fillColMean, if_neg hne]
      simp [fillColWith, List.getElem?_map, hx]

/-- Concrete instance of `fill_with_median_mean_spec`: filling
`a = [1, null, 3]` fills the null with the median `2` (and the mean
`2`) while leaving the other cells alone. -/
theorem fill_with_median_mean_spec_witness :
    lookupCol (fillWithMedian [("a", [some 1, none, some 3])] ["a"]) "a"
      = some [some 1, some 2, some 3]
    ∧ lookupCol (fillWithMean [("a", [some 1, none, some 3])] ["a"]) "a"
      = some [some 1, some 2, some 3] := by
  obtain ⟨hmed, hmean, -, -, -, -⟩ :=
    fill_with_median_mean_spec [("a", [some 1, none, some 3])] ["a"] "a"
      [some 1, none, some 3]
      (by intro c hc; simp at hc; simp [hc, lookupCol])
      (by simp) (by simp [lookupCol]) (by simp [denull])
  have hd : denull [some (1:ℚ), none, some 3] = [1, 3] := by simp [denull]
  have hm : median [1, 3] = 2 := by
    have ht : Int.toNat 0 = 0 := rfl
    norm_num [median, quantile, sortList, insertSorted, ht]
  have hmean2 : mean [1, 3] = 2 := by norm_num [mean]
  constructor
  · rw [hmed, fillColMedian, if_neg (by simp [denull]), hd, hm]
    simp [fillColWith]
  · rw [hmean, fillColMean, if_neg (by simp [denull]), hd, hmean2]
    simp [fillColWith]

/-- Claim C6: for a non-empty table, `percent_missing` reports
`100 · (total null cells) / (rows · cols)` rounded to 10 decimal
places (the Python method itself returns `None`; the embedding returns
the reported number), and when no cell is missing the reported value is
exactly `0`. -/
theorem percent_missing_spec (df : DataFrame) (hr : 0 < nRows df)
    (hc : 0 < nCols df) :
    percent_missing df
      = some (round10
          (100 * (totalMissing df : ℚ) / ((nRows df : ℚ) * (nCols df : ℚ))))
    ∧ (totalMissing df = 0 → percent_missing df = some 0) := by
  have hne : ¬(nRows df * nCols df = 0) := mul_ne_zero hr.ne' hc.ne'
  constructor
  · simp only [percent_missing]
    rw [if_neg hne]
    congr 2
    push_cast
    ring
  · intro h0
    simp only [percent_missing]
    rw [if_neg hne, h0]
    norm_num [round10, round_zero]

/-- Concrete instance of `percent_missing_spec`: a 2-row, 1-column
table with no nulls reports `0`. -/
theorem percent_missing_spec_witness :
    percent_missing [("a", [some 1, some 2])] = some 0 :=
  (percent_missing_spec [("a", [some 1, some 2])]
      (by norm_num [nRows]) (by norm_num [nCols])).2
    (by simp [totalMissing, countNone])

/-- Claim C7: when every fit in the sweep over `k ∈ [1, num)` succeeds
and `num ≥ 1`, `choose_k_means` returns two sequences of length
`num - 1` — one distortion and one inertia entry per candidate `k` —
and for `num = 1` both returned sequences are empty. -/
theorem choose_k_means_lengths (fit : ℕ → Option (ℚ × ℚ)) (num : ℕ)
    (_hnum : 1 ≤ num)
    (hok : ∀ k ∈ List.range' 1 (num - 1), (fit k).isSome = true) :
    ((choose_k_means fit num).1.length = num - 1
      ∧ (choose_k_means fit num).2.length = num - 1)
    ∧ choose_k_means fit 1 = ([], []) := by
  constructor
  · have h := sweepAux_append_all_some fit (List.range' 1 (num - 1)) [] [] [] hok
    simp only [List.append_nil, List.nil_append, sweepAux] at h
    unfold choose_k_means
    rw [h]
    constructor <;> simp
  · rfl

/-- Concrete instance of `choose_k_means_lengths`: an all-succeeding
fit oracle with `num = 3` yields two sequences of length `2`, and with
`num = 1` two empty sequences. -/
theorem choose_k_means_lengths_witness :
    ((choose_k_means (fun k => some ((k : ℚ), (k : ℚ))) 3).1.length = 2
      ∧ (choose_k_means (fun k => some ((k : ℚ), (k : ℚ))) 3).2.length = 2)
    ∧ choose_k_means (fun k => some ((k : ℚ), (k : ℚ))) 1 = ([], []) :=
  choose_k_means_lengths (fun k => some ((k : ℚ), (k : ℚ))) 3
    (by norm_num) (fun k _ => rfl)

/-- Claim C8: when the fits succeed for every `k < j` and iteration
`k = j` (with `1 ≤ j < num`) raises, `choose_k_means` returns the two
partial sequences accumulated before the failure — one entry per
completed `k ∈ [1, j)`, so both have length `j - 1` — rather than
raising or retrying. -/
theorem choose_k_means_stops_at_failure (fit : ℕ → Option (ℚ × ℚ))
    (num j : ℕ) (h1 : 1 ≤ j) (h2 : j < num)
    (hok : ∀ k, 1 ≤ k → k < j → (fit k).isSome = true)
    (hj : fit j = none) :
    choose_k_means fit num
      = ((List.range' 1 (j - 1)).map (fun k => ((fit k).getD (0, 0)).1),
         (List.range' 1 (j - 1)).map (fun k => ((fit k).getD (0, 0)).2))
    ∧ (choose_k_means fit num).1.length = j - 1
    ∧ (choose_k_means fit num).2.length = j - 1 := by
  have hsplit : List.range' 1 (num - 1)
      = List.range' 1 (j - 1) ++ List.range' j (num - j) := by
    rw [show num - 1 = (num - j) + (j - 1) from by omega,
      ← List.range'_append_1]
    have e : 1 + (j - 1) = j := by omega
    rw [e]
  have hok' : ∀ k ∈ List.range' 1 (j - 1), (fit k).isSome = true := by
    intro k hk
    rw [List.mem_range'_1] at hk
    exact hok k hk.1 (by omega)
  have hrest : List.range' j (num - j)
      = j :: List.range' (j + 1) (num - j - 1) := by
    obtain ⟨d, hd⟩ : ∃ d, num - j = d + 1 := ⟨num - j - 1, by omega⟩
    rw [hd, List.range'_succ]
    norm_num
  have hmain : choose_k_means fit num
      = ((List.range' 1 (j - 1)).map (fun k => ((fit k).getD (0, 0)).1),
         (List.range' 1 (j - 1)).map (fun k => ((fit k).getD (0, 0)).2)) := by
    unfold choose_k_means
    rw [hsplit, sweepAux_append_all_some fit _ _ [] [] hok', hrest]
    simp [sweepAux, hj]
  exact ⟨hmain, by rw [hmain]; simp, by rw [hmain]; simp⟩

/-- Concrete instance of `choose_k_means_stops_at_failure`: a fit
oracle that raises at `k = 3` during a sweep to `num = 10` yields the
two entries for `k = 1, 2` only. -/
theorem choose_k_means_stops_at_failure_witness :
    choose_k_means (fun k => if k < 3 then some ((k : ℚ), (2 * k : ℚ)) else none) 10
      = ([1, 2], [2, 4]) := by
  have h := (choose_k_means_stops_at_failure
      (fun k => if k < 3 then some ((k : ℚ), (2 * k : ℚ)) else none) 10 3
      (by norm_num) (by norm_num)
      (by intro k hk1 hk2; simp [hk2])
      (by norm_num)).1
  rw [h, show List.range' 1 (3 - 1) = [1, 2] from rfl]
  norm_num
